import Mathlib

/-!
Verification of the light-curve plotting module (`sncosmo/plotting.py`).

The module is embedded shallowly:

* Fluxes, zeropoints and times are idealised as real numbers (`ℝ`); the
  values fed to `val_and_err_to_str` and `plotpdfs` are idealised as exact
  rationals (`ℚ`) so that the decimal formatting pipeline is computable.
* The plotting library is modelled by a trace of drawing commands
  (`PlotCmd`); a plotting call returns `Except String (List PlotCmd)`,
  `Except.error` standing for an exception raised before any file is
  written.
* External collaborators (bandpass lookup, magnitude-system lookup, the
  model object, and the automatic axis range obtained from `ax.get_ylim()`)
  are parameters of the embedding.
-/

/-- A magnitude system, looked up by label: exposes a per-band reference
flux (`zpbandflux` in the source). -/
structure MagSystem where
  zpbandflux : String → ℝ

/-- A bandpass, looked up by label: exposes an effective wavelength
(`disp_eff` in the source). -/
structure Bandpass where
  name : String
  disp_eff : ℚ

/-- The observation batch: equal-length columns
`time, band, flux, fluxerr, zp, zpsys`. -/
structure ObsData where
  time : List ℝ
  band : List String
  flux : List ℝ
  fluxerr : List ℝ
  zp : List ℝ
  zpsys : List String

/-- The external model object used by `plotlc`: reference time
(params t0 in the source), native time grid (times()), the overlap predicate
(`bandoverlap`), the model flux over the native grid
(bandflux of the band at zeropoint 25 in system ab, with an error component when
`include_error` is set), and the model flux evaluated at given times
(bandflux of the band evaluated at given times, same zeropoint and system). -/
structure SNModel where
  params_t0 : ℝ
  times : List ℝ
  bandoverlap : Bandpass → Bool
  bandflux_grid : Bandpass → List ℝ
  bandflux_grid_err : Bandpass → List ℝ
  bandflux_at : Bandpass → List ℝ → List ℝ

/-- The per-row conversion factor of `normalized_flux`:
`ms.zpbandflux(band[i]) / magsys.zpbandflux(band[i]) * 10.**(0.4*(zp - zp[i]))`
where `ms` is the native system looked up from `zpsys[i]` and `magsys` the
target system. -/
noncomputable def nfFactor (gms : String → MagSystem) (magsys : MagSystem)
    (data : ObsData) (zp : ℝ) (i : ℕ) : ℝ :=
  (gms (data.zpsys.getD i "")).zpbandflux (data.band.getD i "") /
      magsys.zpbandflux (data.band.getD i "") *
    (10 : ℝ) ^ (0.4 * (zp - data.zp.getD i 0))

/-- The function normalized_flux(data, zp, magsys) with defaults zp = 25
and magsys = ab: for each row `i` of the
batch, multiply `flux[i]` and `fluxerr[i]` by the conversion factor and
return the two resulting arrays. -/
noncomputable def normalized_flux (gms : String → MagSystem) (data : ObsData)
    (zp : ℝ := 25) (magsys : String := "ab") : List ℝ × List ℝ :=
  ((List.range data.flux.length).map
      (fun i => data.flux.getD i 0 * nfFactor gms (gms magsys) data zp i),
   (List.range data.flux.length).map
      (fun i => data.fluxerr.getD i 0 * nfFactor gms (gms magsys) data zp i))

/-- The batch with the `flux` and `fluxerr` columns scaled by `c` (used to
state that `normalized_flux` is homogeneous in the flux columns). -/
noncomputable def scaleFluxes (c : ℝ) (data : ObsData) : ObsData :=
  { data with flux := data.flux.map (fun x => c * x),
              fluxerr := data.fluxerr.map (fun x => c * x) }

/-- One drawing command of the plotting library; a plotting call is
modelled as the list of commands it issues (styling-only keyword
arguments such as colors and marker sizes are not recorded). -/
inductive PlotCmd where
  | subplot (nrow ncol num : ℤ)
  | text (x y : ℝ) (s : String)
  | ylabel (s : String)
  | errorbar (time flux fluxerr : List ℝ)
  | plot (x y : List ℝ)
  | fill_between (x ylo yhi : List ℝ)
  | append_axes
  | axhline (y : ℝ)
  | setp_hide_xticklabels
  | xlabel_time_minus (t0 : ℝ)
  | set_ylim (lo hi : ℝ)
  | subplots_adjust
  | show_fig
  | savefig (fname : String)
  | clf
  | hist (vals weights : List ℚ) (range : ℚ × ℚ) (bins : ℕ)

/-- Whether a command is an error-bar series (`plt.errorbar`). -/
def isErrorbarCmd : PlotCmd → Bool
  | PlotCmd.errorbar _ _ _ => true
  | _ => false

/-- Whether a command is a curve drawn with `plt.plot`. -/
def isPlotCmd : PlotCmd → Bool
  | PlotCmd.plot _ _ => true
  | _ => false

/-- Modelled from the spec: the plotting library's subplot addressing is
1-based, so `plt.subplot(nrow, ncol, num)` succeeds exactly when
`1 ≤ num ≤ nrow*ncol` and otherwise aborts the call with an error. -/
def subplotE (nrow ncol num : ℤ) : Except String (List PlotCmd) :=
  if 1 ≤ num ∧ num ≤ nrow * ncol then Except.ok [PlotCmd.subplot nrow ncol num]
  else Except.error "subplot: num must be inside the 1-based grid range"

/-- Byte-wise comparison of character lists (used to model the
lexicographic sort performed by `np.unique` on an array of strings). -/
def charListLe : List Char → List Char → Bool
  | [], _ => true
  | _ :: _, [] => false
  | a :: as, b :: bs => if a < b then true else if b < a then false else charListLe as bs

/-- Lexicographic string comparison. -/
def strLe (s t : String) : Bool := charListLe s.data t.data

/-- `strLe` as a relation, for use with `List.insertionSort`. -/
def strLeP : String → String → Prop := fun s t => strLe s t = true

instance : DecidableRel strLeP := fun s t => inferInstanceAs (Decidable (strLe s t = true))

/-- `np.unique(...).tolist()` on the band column: the distinct labels,
sorted lexicographically. -/
def npUnique (l : List String) : List String :=
  List.insertionSort strLeP l.dedup

/-- Comparison of `(disp, bandname)` pairs by effective wavelength, the
key of `sorted(zip(disps, bands, bandnames))`.  Python breaks ties by
comparing the bandpass objects themselves, which is unspecified; the
embedding uses a stable sort over the name-sorted distinct bands, so ties
stay in lexicographic order. -/
def dispLe : ℚ × String → ℚ × String → Prop := fun p q => p.1 ≤ q.1

instance : DecidableRel dispLe := fun p q => inferInstanceAs (Decidable (p.1 ≤ q.1))

instance : IsTotal (ℚ × String) dispLe := ⟨fun a b => le_total a.1 b.1⟩

instance : IsTrans (ℚ × String) dispLe := ⟨fun _ _ _ h1 h2 => le_trans h1 h2⟩

/-- The `(disp_eff, bandname)` pairs of the distinct bands of the batch,
sorted by ascending effective wavelength — the iteration order of the
panel loop of `plotlc`. -/
def sortedBandDisp (gbp : String → Bandpass) (data : ObsData) : List (ℚ × String) :=
  List.insertionSort dispLe ((npUnique data.band).map (fun bn => ((gbp bn).disp_eff, bn)))

/-- The boolean mask selection of vals at the rows whose band column
equals bandname. -/
def selectBy (keys : List String) (k : String) (vals : List ℝ) : List ℝ :=
  ((keys.zip vals).filter (fun p => p.1 == k)).map (fun p => p.2)

/-- `np.max` of a flux array (the source never takes it of an empty
array; the value on `[]` is irrelevant). -/
noncomputable def listMax : List ℝ → ℝ
  | [] => 0
  | x :: xs => xs.foldl max x

/-- The y-axis label string of the flux panels. -/
def fluxYLabel : String := "flux ($ZP_\x7bAB\x7d = 25$)"

/-- One band panel of `plotlc`: subplot, band-name text, y-label on the
left column, then either the data error bars (no model), or — when the
model overlaps the band — shifted error bars, the model curve, the
optional error band, the optional pulls subpanel, and the final y-range
clamp.  When a model is given but does not overlap the band, nothing
beyond the panel furniture is drawn. -/
noncomputable def plotlcPanel (gbp : String → Bandpass) (autoYlim : ℕ → ℝ × ℝ)
    (data : ObsData) (dataflux datafluxerr : List ℝ) (model : Option SNModel)
    (show_pulls include_model_error : Bool) (axnum : ℕ) (bandname : String) :
    Except String (List PlotCmd) :=
  match subplotE 2 2 (axnum : ℤ) with
  | Except.error msg => Except.error msg
  | Except.ok sub =>
    let band := gbp bandname
    let time := selectBy data.band bandname data.time
    let flux := selectBy data.band bandname dataflux
    let fluxerr := selectBy data.band bandname datafluxerr
    let head := sub ++ [PlotCmd.text 0.9 0.9 bandname] ++
      (if axnum % 2 = 1 then [PlotCmd.ylabel fluxYLabel] else [])
    match model with
    | none => Except.ok (head ++ [PlotCmd.errorbar time flux fluxerr])
    | some m =>
      if m.bandoverlap band then
        let t0 := m.params_t0
        let modelflux := m.bandflux_grid band
        let modelfluxerr := m.bandflux_grid_err band
        let dataCmds := [PlotCmd.errorbar (time.map (fun t => t - t0)) flux fluxerr,
                         PlotCmd.plot (m.times.map (fun t => t - t0)) modelflux] ++
          (if include_model_error then
             [PlotCmd.fill_between (m.times.map (fun t => t - t0))
               (List.zipWith (fun a b => a - b) modelflux modelfluxerr)
               (List.zipWith (fun a b => a + b) modelflux modelfluxerr)]
           else [])
        let pullsflux := m.bandflux_at band time
        let pullsCmds := if show_pulls then
            [PlotCmd.append_axes,
             PlotCmd.plot (time.map (fun t => t - t0))
               (List.zipWith (fun a b => a / b)
                 (List.zipWith (fun a b => a - b) flux pullsflux) fluxerr),
             PlotCmd.axhline 0,
             PlotCmd.setp_hide_xticklabels,
             PlotCmd.xlabel_time_minus t0] ++
            (if axnum % 2 = 1 then [PlotCmd.ylabel "pull"] else [])
          else []
        let maxmodelflux := listMax (if show_pulls then pullsflux else modelflux)
        Except.ok (head ++ dataCmds ++ pullsCmds ++
          [PlotCmd.set_ylim (max (autoYlim axnum).1 ((-0.2 : ℝ) * maxmodelflux))
                            (min (autoYlim axnum).2 ((2 : ℝ) * maxmodelflux))])
      else
        Except.ok head

/-- The panel loop of `plotlc` (`axnum` is incremented before each
panel, exactly as in the source). -/
noncomputable def plotlcPanels (gbp : String → Bandpass) (autoYlim : ℕ → ℝ × ℝ)
    (data : ObsData) (dataflux datafluxerr : List ℝ) (model : Option SNModel)
    (show_pulls include_model_error : Bool) :
    ℕ → List (ℚ × String) → Except String (List PlotCmd)
  | _, [] => Except.ok []
  | axnum, db :: rest =>
    match plotlcPanel gbp autoYlim data dataflux datafluxerr model
        show_pulls include_model_error (axnum + 1) db.2 with
    | Except.error msg => Except.error msg
    | Except.ok panel =>
      match plotlcPanels gbp autoYlim data dataflux datafluxerr model
          show_pulls include_model_error (axnum + 1) rest with
      | Except.error msg => Except.error msg
      | Except.ok later => Except.ok (panel ++ later)

/-- The closing commands of `plotlc`: adjust the subplot layout, then
`show()` when no filename is given, else `savefig(fname)` and `clf()`. -/
def plotlcTrailer (fname : Option String) : List PlotCmd :=
  [PlotCmd.subplots_adjust] ++
    (match fname with
     | none => [PlotCmd.show_fig]
     | some f => [PlotCmd.savefig f, PlotCmd.clf])

/-- `plotlc(data, fname, model, show_pulls, include_model_error)`:
normalize the fluxes to zeropoint 25 / system "ab", group by band, sort
the bands by effective wavelength, draw one panel per band, then adjust
the layout and show or save the figure. -/
noncomputable def plotlc (gbp : String → Bandpass) (gms : String → MagSystem)
    (autoYlim : ℕ → ℝ × ℝ) (data : ObsData) (fname : Option String)
    (model : Option SNModel := none) (show_pulls : Bool := true)
    (include_model_error : Bool := false) : Except String (List PlotCmd) :=
  let nf := normalized_flux gms data 25 "ab"
  match plotlcPanels gbp autoYlim data nf.1 nf.2 model show_pulls
      include_model_error 0 (sortedBandDisp gbp data) with
  | Except.error msg => Except.error msg
  | Except.ok panels => Except.ok (panels ++ plotlcTrailer fname)

/-- The last `set_ylim` command of a trace: the final y-range of the
(single-panel) figure. -/
def lastSetYlim (cmds : List PlotCmd) : Option (ℝ × ℝ) :=
  cmds.foldl (fun acc c =>
    match c with
    | PlotCmd.set_ylim a b => some (a, b)
    | _ => acc) none

/-- Fuel-driven base-10 digit rendering (most significant digit first);
`fuel ≥ n` suffices. -/
def natDigitsAux : ℕ → ℕ → List Char
  | 0, _ => []
  | _ + 1, 0 => []
  | f + 1, n + 1 => natDigitsAux f ((n + 1) / 10) ++ [Nat.digitChar ((n + 1) % 10)]

/-- Decimal rendering of a natural number. -/
def natDecimalString (n : ℕ) : String :=
  if n = 0 then "0" else ⟨natDigitsAux n n⟩

/-- Left-pad a digit list with zeros to length `p`. -/
def padZeros (s : List Char) (p : ℕ) : List Char :=
  List.replicate (p - s.length) '0' ++ s

/-- Round the fraction `a / d` (with `d > 0`) to the nearest integer,
ties to even — the rounding performed by fixed-point float formatting. -/
def roundHalfEven (a : ℤ) (d : ℕ) : ℤ :=
  let q := Int.fdiv a d
  let r := a - q * d
  if 2 * r < (d : ℤ) then q
  else if (d : ℤ) < 2 * r then q + 1
  else if q % 2 = 0 then q else q + 1

/-- Fixed-point formatting to precision `p` (the format spec .pf of the
source): render `x` with exactly `p` digits after the decimal point (no
point at all when `p = 0`), idealised over exact rationals.  The
computation works on `x.num` and `x.den` directly so that it reduces
inside the kernel. -/
def formatFixed (x : ℚ) (p : ℕ) : String :=
  let n := roundHalfEven (x.num * 10 ^ p) x.den
  let sign : String := if n < 0 then "-" else ""
  let m := n.natAbs
  if p = 0 then sign ++ natDecimalString m
  else
    sign ++ natDecimalString (m / 10 ^ p) ++ "." ++
      ⟨padZeros (natDigitsAux (m % 10 ^ p) (m % 10 ^ p)) p⟩

/-- Fuel-driven loop computing, for `d ≤ n`, the largest `k` with
`d * 10 ^ k ≤ n` (adequate fuel provided); together with `iclog10` this
realises `math.floor(math.log10(e))` exactly on rationals. -/
def ilog10up : ℕ → ℕ → ℕ → ℕ
  | 0, _, _ => 0
  | f + 1, n, d => if n < 10 * d then 0 else ilog10up f n (10 * d) + 1

/-- Fuel-driven loop computing the smallest `k` with `d ≤ n * 10 ^ k`
(adequate fuel provided). -/
def iclog10 : ℕ → ℕ → ℕ → ℕ
  | 0, _, _ => 0
  | f + 1, n, d => if d ≤ n then 0 else iclog10 f (10 * n) d + 1

/-- `math.floor(math.log10(e))` for a positive rational `e` (the value on
non-positive arguments is irrelevant: the caller raises there). -/
def floorLog10 (e : ℚ) : ℤ :=
  if e.den ≤ e.num.toNat then (ilog10up e.num.toNat e.num.toNat e.den : ℤ)
  else -(iclog10 e.den e.num.toNat e.den : ℤ)

/-- `p = max(0, -int(math.floor(math.log10(e))) + 1)`. -/
def precOf (e : ℚ) : ℕ := (max 0 (-(floorLog10 e) + 1)).toNat

/-- `val_and_err_to_str(v, e)`: format value and uncertainty to the
precision matched to the uncertainty's leading digit, as
`"value ± error"` (rendered with an ASCII plus-minus sign).  `math.log10`
raises on a non-positive argument, so the call fails exactly when
`e ≤ 0`. -/
def val_and_err_to_str (v e : ℚ) : Option String :=
  if e.num ≤ 0 then none
  else some (formatFixed v (precOf e) ++ " +/- " ++ formatFixed e (precOf e))

/-- The number of characters after the (first) decimal point of a
rendered number; `0` when there is no decimal point. -/
def decimalCount (s : String) : ℕ :=
  ((s.data.dropWhile (fun c => c ≠ '.')).drop 1).length

/-- `nrow = (npar-1) // ncol + 1` of `plotpdfs`, with Python's floor
division. -/
def nrowOf (npar ncol : ℕ) : ℤ := Int.fdiv ((npar : ℤ) - 1) (ncol : ℤ) + 1

/-- One histogram panel of `plotpdfs` for parameter index `i`: the display
range `averages[i] ± 5*errors[i]` and the annotation text are computed
first (`val_and_err_to_str` raises on a non-positive uncertainty), then
the panel is addressed with `plt.subplot(nrow, ncol, i)` — the raw loop
counter `i` — and the weighted 30-bin histogram and the text are drawn. -/
def plotpdfsPanel (parnames : List String) (samples : List (List ℚ))
    (weights averages errors : List ℚ) (nrow ncol : ℤ) (i : ℕ) :
    Except String (List PlotCmd) :=
  let avg := averages.getD i 0
  let err := errors.getD i 0
  let plot_range := (avg - 5 * err, avg + 5 * err)
  match val_and_err_to_str avg err with
  | none => Except.error "math domain error"
  | some s =>
    match subplotE nrow ncol (i : ℤ) with
    | Except.error msg => Except.error msg
    | Except.ok sub =>
      Except.ok (sub ++
        [PlotCmd.hist (samples.map (fun row => row.getD i 0)) weights plot_range 30,
         PlotCmd.text 0.9 0.9 (parnames.getD i "" ++ " = " ++ s)])

/-- The panel loop of `plotpdfs` over the parameter indices. -/
def plotpdfsLoop (parnames : List String) (samples : List (List ℚ))
    (weights averages errors : List ℚ) (nrow ncol : ℤ) :
    List ℕ → Except String (List PlotCmd)
  | [] => Except.ok []
  | i :: rest =>
    match plotpdfsPanel parnames samples weights averages errors nrow ncol i with
    | Except.error msg => Except.error msg
    | Except.ok panel =>
      match plotpdfsLoop parnames samples weights averages errors nrow ncol rest with
      | Except.error msg => Except.error msg
      | Except.ok later => Except.ok (panel ++ later)

/-- `plotpdfs(parnames, samples, weights, averages, errors, fname, ncol=2)`:
draw one weighted histogram per parameter in an `nrow × ncol` grid and
save the figure. -/
def plotpdfs (parnames : List String) (samples : List (List ℚ))
    (weights averages errors : List ℚ) (fname : String) (ncol : ℕ := 2) :
    Except String (List PlotCmd) :=
  let npar := parnames.length
  let nrow := nrowOf npar ncol
  match plotpdfsLoop parnames samples weights averages errors nrow (ncol : ℤ)
      (List.range npar) with
  | Except.error msg => Except.error msg
  | Except.ok panels => Except.ok (panels ++ [PlotCmd.savefig fname, PlotCmd.clf])

/-- Fixture: a magnitude system whose reference flux is 1 in every band. -/
def msOne : MagSystem := ⟨fun _ => 1⟩

/-- Fixture: a magnitude-system lookup returning `msOne` for every label. -/
def gmsOne : String → MagSystem := fun _ => msOne

/-- Fixture: a one-row observation batch. -/
def dataA : ObsData := ⟨[0], ["sdssg"], [2], [3], [25], ["ab"]⟩

/-- Fixture: a bandpass named "b" with effective wavelength 5. -/
def bpB : Bandpass := ⟨"b", 5⟩

/-- Fixture: a bandpass lookup returning `bpB` for every label. -/
def gbpB : String → Bandpass := fun _ => bpB

/-- Fixture: a one-row batch in band "b". -/
def dataB : ObsData := ⟨[1], ["b"], [2], [1], [25], ["ab"]⟩

/-- Fixture: a model that overlaps no band. -/
def modelNoOverlap : SNModel := ⟨0, [0], fun _ => false, fun _ => [1], fun _ => [0], fun _ _ => [1]⟩

/-- Fixture: a model that overlaps every band; its flux on the native grid
peaks at 20 while its flux at the observation times peaks at 5. -/
def modelOverlap : SNModel := ⟨0, [0], fun _ => true, fun _ => [20], fun _ => [0], fun _ _ => [5]⟩

/-- Fixture: an automatic y-range wide enough never to bind. -/
def ylimConst : ℕ → ℝ × ℝ := fun _ => ((-1000 : ℝ), (1000 : ℝ))

/-- Fixture: a bandpass lookup with band "g" bluer than band "r". -/
def gbp2 : String → Bandpass := fun s => if s = "g" then ⟨"g", 4⟩ else ⟨"r", 6⟩

/-- Fixture: a two-row batch in bands "r" and "g". -/
def data2 : ObsData := ⟨[0, 1], ["r", "g"], [1, 2], [1, 1], [25, 25], ["ab", "ab"]⟩

/-- The rational `1.2345` in reduced normal form (kernel-reducible). -/
def q1_2345 : ℚ := ⟨2469, 2000, by norm_num, by norm_num⟩

/-- The rational `0.012` in reduced normal form. -/
def q0_012 : ℚ := ⟨3, 250, by norm_num, by norm_num⟩

/-- The rational `123.4` in reduced normal form. -/
def q123_4 : ℚ := ⟨617, 5, by norm_num, by norm_num⟩

/-- The rational `5.0` in reduced normal form. -/
def q5_0 : ℚ := ⟨5, 1, by norm_num, by norm_num⟩

theorem digitChar_lt_ten_ne_dot : ∀ m, m < 10 → Nat.digitChar m ≠ '.' := by decide

theorem natDigitsAux_ne_dot (f : ℕ) : ∀ n : ℕ, ∀ c ∈ natDigitsAux f n, c ≠ '.' := by
  induction f with
  | zero => intro n; simp [natDigitsAux]
  | succ f ih =>
    intro n
    cases n with
    | zero => simp [natDigitsAux]
    | succ n =>
      intro c hc
      simp only [natDigitsAux, List.mem_append, List.mem_singleton] at hc
      rcases hc with h | h
      · exact ih _ c h
      · subst h
        exact digitChar_lt_ten_ne_dot _ (Nat.mod_lt _ (by norm_num))

theorem natDigitsAux_length_le (f : ℕ) : ∀ n p : ℕ, n < 10 ^ p → n ≤ f →
    (natDigitsAux f n).length ≤ p := by
  induction f with
  | zero => intro n p _ _; simp [natDigitsAux]
  | succ f ih =>
    intro n p hp hf
    cases n with
    | zero => simp [natDigitsAux]
    | succ n =>
      cases p with
      | zero => omega
      | succ p =>
        have h1 : (n + 1) / 10 < 10 ^ p := by
          rw [Nat.div_lt_iff_lt_mul (by norm_num)]
          calc n + 1 < 10 ^ (p + 1) := hp
            _ = 10 ^ p * 10 := by ring
        have h2 : (n + 1) / 10 ≤ f := by
          have := Nat.div_lt_self (Nat.succ_pos n) (by norm_num : (1 : ℕ) < 10)
          omega
        have h3 := ih _ _ h1 h2
        simp only [natDigitsAux, List.length_append, List.length_singleton]
        omega

theorem natDecimalString_ne_dot (n : ℕ) : ∀ c ∈ (natDecimalString n).data, c ≠ '.' := by
  unfold natDecimalString
  by_cases h : n = 0
  · simp [h]
  · simpa [h] using natDigitsAux_ne_dot n n

theorem dropWhile_all_ne_dot (l : List Char) (h : ∀ c ∈ l, c ≠ '.') :
    l.dropWhile (fun c => c ≠ '.') = [] := by
  induction l with
  | nil => rfl
  | cons a l ih =>
    have ha : a ≠ '.' := h a (List.mem_cons_self a l)
    have ih' := ih (fun c hc => h c (List.mem_cons_of_mem _ hc))
    simp [List.dropWhile_cons, ha] at ih' ⊢
    exact ih'

theorem dropWhile_ne_dot_append (l2 : List Char) : ∀ l1 : List Char, (∀ c ∈ l1, c ≠ '.') →
    (l1 ++ '.' :: l2).dropWhile (fun c => c ≠ '.') = '.' :: l2 := by
  intro l1
  induction l1 with
  | nil => intro _; simp [List.dropWhile_cons]
  | cons a l ih =>
    intro h
    have ha : a ≠ '.' := h a (List.mem_cons_self a l)
    have ih' := ih (fun c hc => h c (List.mem_cons_of_mem _ hc))
    simp [List.dropWhile_cons, ha] at ih' ⊢
    exact ih'

theorem padZeros_length (s : List Char) (p : ℕ) (h : s.length ≤ p) :
    (padZeros s p).length = p := by
  simp only [padZeros, List.length_append, List.length_replicate]
  omega

theorem signStr_ne_dot (n : ℤ) : ∀ c ∈ ((if n < 0 then "-" else "") : String).data, c ≠ '.' := by
  by_cases h : n < 0 <;> simp [h]

theorem decimalCount_formatFixed (x : ℚ) (p : ℕ) : decimalCount (formatFixed x p) = p := by
  rcases Nat.eq_zero_or_pos p with hp | hp
  · subst hp
    have h0 : formatFixed x 0 =
        (if roundHalfEven (x.num * 10 ^ 0) x.den < 0 then "-" else "") ++
          natDecimalString (roundHalfEven (x.num * 10 ^ 0) x.den).natAbs := rfl
    rw [decimalCount, h0, String.data_append, dropWhile_all_ne_dot]
    · rfl
    · intro c hc
      rcases List.mem_append.mp hc with h | h
      · exact signStr_ne_dot _ c h
      · exact natDecimalString_ne_dot _ c h
  · obtain ⟨q, rfl⟩ := Nat.exists_eq_succ_of_ne_zero (Nat.pos_iff_ne_zero.mp hp)
    have hfrac : (natDigitsAux ((roundHalfEven (x.num * 10 ^ (q + 1)) x.den).natAbs % 10 ^ (q + 1))
        ((roundHalfEven (x.num * 10 ^ (q + 1)) x.den).natAbs % 10 ^ (q + 1))).length ≤ q + 1 :=
      natDigitsAux_length_le _ _ _ (Nat.mod_lt _ (by positivity)) le_rfl
    have h1 : formatFixed x (q + 1) =
        (if roundHalfEven (x.num * 10 ^ (q + 1)) x.den < 0 then "-" else "") ++
          natDecimalString ((roundHalfEven (x.num * 10 ^ (q + 1)) x.den).natAbs / 10 ^ (q + 1)) ++
          "." ++
          String.mk (padZeros
            (natDigitsAux ((roundHalfEven (x.num * 10 ^ (q + 1)) x.den).natAbs % 10 ^ (q + 1))
              ((roundHalfEven (x.num * 10 ^ (q + 1)) x.den).natAbs % 10 ^ (q + 1))) (q + 1)) := rfl
    rw [decimalCount, h1, String.data_append, String.data_append, String.data_append]
    rw [show (("." : String).data) = ['.'] from rfl]
    rw [show (String.mk (padZeros
        (natDigitsAux ((roundHalfEven (x.num * 10 ^ (q + 1)) x.den).natAbs % 10 ^ (q + 1))
          ((roundHalfEven (x.num * 10 ^ (q + 1)) x.den).natAbs % 10 ^ (q + 1))) (q + 1))).data =
      padZeros (natDigitsAux ((roundHalfEven (x.num * 10 ^ (q + 1)) x.den).natAbs % 10 ^ (q + 1))
        ((roundHalfEven (x.num * 10 ^ (q + 1)) x.den).natAbs % 10 ^ (q + 1))) (q + 1) from rfl]
    rw [List.append_assoc _ ['.'] _, List.singleton_append]
    rw [dropWhile_ne_dot_append]
    · show ((padZeros _ (q + 1)).length) = q + 1
      exact padZeros_length _ _ hfrac
    · intro c hc
      rcases List.mem_append.mp hc with h | h
      · exact signStr_ne_dot _ c h
      · exact natDecimalString_ne_dot _ c h


theorem ilog10up_spec (f : ℕ) : ∀ n d : ℕ, 0 < d → d ≤ n → n < d * 10 ^ (f + 1) →
    d * 10 ^ ilog10up f n d ≤ n ∧ n < d * 10 ^ (ilog10up f n d + 1) := by
  induction f with
  | zero =>
    intro n d _ hdn hlt
    simp only [ilog10up, pow_zero, mul_one]
    exact ⟨hdn, by simpa using hlt⟩
  | succ f ih =>
    intro n d hd hdn hlt
    by_cases h : n < 10 * d
    · simp only [ilog10up, if_pos h, pow_zero, mul_one, zero_add, pow_one]
      exact ⟨hdn, by omega⟩
    · simp only [ilog10up, if_neg h]
      have h10 : 10 * d ≤ n := le_of_not_lt h
      have hlt' : n < 10 * d * 10 ^ (f + 1) := by
        calc n < d * 10 ^ (f + 1 + 1) := hlt
          _ = 10 * d * 10 ^ (f + 1) := by ring
      obtain ⟨h1, h2⟩ := ih n (10 * d) (by omega) h10 hlt'
      constructor
      · calc d * 10 ^ (ilog10up f n (10 * d) + 1) = 10 * d * 10 ^ ilog10up f n (10 * d) := by ring
          _ ≤ n := h1
      · calc n < 10 * d * 10 ^ (ilog10up f n (10 * d) + 1) := h2
          _ = d * 10 ^ (ilog10up f n (10 * d) + 1 + 1) := by ring

theorem iclog10_of_le (f n d : ℕ) (h : d ≤ n) : iclog10 f n d = 0 := by
  cases f <;> simp [iclog10, h]

theorem iclog10_spec (f : ℕ) : ∀ n d : ℕ, 0 < n → d ≤ n * 10 ^ f →
    d ≤ n * 10 ^ iclog10 f n d ∧
      (n < d → 1 ≤ iclog10 f n d ∧ n * 10 ^ (iclog10 f n d - 1) < d) := by
  induction f with
  | zero =>
    intro n d _ hf
    simp only [iclog10, pow_zero, mul_one] at hf ⊢
    exact ⟨hf, fun hnd => absurd hf (not_le.mpr hnd)⟩
  | succ f ih =>
    intro n d hn hf
    by_cases h : d ≤ n
    · simp only [iclog10, if_pos h, pow_zero, mul_one]
      exact ⟨h, fun hnd => absurd h (not_le.mpr hnd)⟩
    · simp only [iclog10, if_neg h]
      push_neg at h
      have hf' : d ≤ 10 * n * 10 ^ f := by
        calc d ≤ n * 10 ^ (f + 1) := hf
          _ = 10 * n * 10 ^ f := by ring
      obtain ⟨h1, h2⟩ := ih (10 * n) d (by omega) hf'
      refine ⟨?_, fun _ => ⟨Nat.le_add_left 1 _, ?_⟩⟩
      · calc d ≤ 10 * n * 10 ^ iclog10 f (10 * n) d := h1
          _ = n * 10 ^ (iclog10 f (10 * n) d + 1) := by ring
      · simp only [Nat.add_sub_cancel]
        by_cases hd : d ≤ 10 * n
        · have hc' : iclog10 f (10 * n) d = 0 := iclog10_of_le f (10 * n) d hd
          simpa [hc'] using h
        · push_neg at hd
          obtain ⟨hc1, hc2⟩ := h2 hd
          obtain ⟨c, hc⟩ := Nat.exists_eq_succ_of_ne_zero (by omega : iclog10 f (10 * n) d ≠ 0)
          rw [hc]
          have hc2' : 10 * n * 10 ^ c < d := by simpa [hc] using hc2
          calc n * 10 ^ (c + 1) = 10 * n * 10 ^ c := by ring
            _ < d := hc2'

theorem floorLog10_spec (e : ℚ) (he : 0 < e) :
    (10 : ℚ) ^ floorLog10 e ≤ e ∧ e < (10 : ℚ) ^ (floorLog10 e + 1) := by
  have hnum : 0 < e.num := Rat.num_pos.mpr he
  have hden : 0 < e.den := e.den_pos
  set n := e.num.toNat with hn
  have hn1 : 1 ≤ n := by omega
  have hz : ((n : ℤ)) = e.num := Int.toNat_of_nonneg hnum.le
  have hdenQ : (0 : ℚ) < (e.den : ℚ) := by exact_mod_cast hden
  have he' : e = (n : ℚ) / (e.den : ℚ) := by
    conv_lhs => rw [← Rat.num_div_den e]
    rw [← hz]
    push_cast
    ring
  by_cases hb : e.den ≤ n
  · obtain ⟨h1, h2⟩ := ilog10up_spec n n e.den hden hb
      (by
        have h1 : n < 10 ^ n := Nat.lt_pow_self (by norm_num) n
        have h2 : 10 ^ n ≤ 10 ^ (n + 1) := Nat.pow_le_pow_right (by norm_num) (by omega)
        have h3 : 10 ^ (n + 1) ≤ e.den * 10 ^ (n + 1) := Nat.le_mul_of_pos_left _ hden
        omega)
    set k := ilog10up n n e.den with hkdef
    have hfl : floorLog10 e = (k : ℤ) := by
      rw [floorLog10, if_pos (by rw [← hn]; exact hb)]
    rw [hfl]
    constructor
    · rw [zpow_natCast, he', le_div_iff₀ hdenQ]
      have hnat : 10 ^ k * e.den ≤ n := by rw [Nat.mul_comm]; exact h1
      exact_mod_cast hnat
    · rw [show ((k : ℤ) + 1) = ((k + 1 : ℕ) : ℤ) by push_cast; ring]
      rw [zpow_natCast, he', div_lt_iff₀ hdenQ]
      have hnat : n < 10 ^ (k + 1) * e.den := by rw [Nat.mul_comm]; exact h2
      exact_mod_cast hnat
  · have hnd : n < e.den := by omega
    obtain ⟨h1, h2⟩ := iclog10_spec e.den n e.den hn1
      (by
        have ha : e.den < 10 ^ e.den := Nat.lt_pow_self (by norm_num) e.den
        have hb : 10 ^ e.den ≤ n * 10 ^ e.den := Nat.le_mul_of_pos_left _ hn1
        omega)
    obtain ⟨hc1, hc2⟩ := h2 hnd
    set c := iclog10 e.den n e.den with hcdef
    have hfl : floorLog10 e = -(c : ℤ) := by
      rw [floorLog10, if_neg (by rw [← hn]; omega)]
    rw [hfl]
    constructor
    · rw [zpow_neg, zpow_natCast, he', inv_eq_one_div, div_le_div_iff₀ (by positivity) hdenQ,
        one_mul]
      exact_mod_cast h1
    · have hcast : ((c - 1 : ℕ) : ℤ) = (c : ℤ) - 1 := Nat.cast_sub hc1
      have hexp : -(c : ℤ) + 1 = -((c - 1 : ℕ) : ℤ) := by omega
      rw [hexp, zpow_neg, zpow_natCast, he', inv_eq_one_div,
        div_lt_div_iff₀ hdenQ (by positivity), one_mul]
      exact_mod_cast hc2

theorem lit_1_2345 : (1.2345 : ℚ) = q1_2345 := by
  unfold q1_2345
  rw [Rat.mk'_eq_divInt, Rat.divInt_eq_div]
  norm_num

theorem lit_0_012 : (0.012 : ℚ) = q0_012 := by
  unfold q0_012
  rw [Rat.mk'_eq_divInt, Rat.divInt_eq_div]
  norm_num

theorem lit_123_4 : (123.4 : ℚ) = q123_4 := by
  unfold q123_4
  rw [Rat.mk'_eq_divInt, Rat.divInt_eq_div]
  norm_num

theorem lit_5_0 : (5.0 : ℚ) = q5_0 := by
  unfold q5_0
  rw [Rat.mk'_eq_divInt, Rat.divInt_eq_div]
  norm_num

/-- C5: for every value `v` and positive uncertainty `e`,
`val_and_err_to_str` formats both `v` and `e` to exactly
`p = max(0, -floor(log10 e) + 1)` decimal places and returns
`"value ± error"` (ASCII plus-minus in the actual string); for non-positive `e` the call fails (the logarithm is
invalid), and it fails in no other case.  The third and fourth conjuncts
certify that `floorLog10` is the floor of the base-10 logarithm. -/
theorem val_and_err_to_str_spec (v e : ℚ) :
    (val_and_err_to_str v e = none ↔ e ≤ 0) ∧
    (0 < e →
      val_and_err_to_str v e =
          some (formatFixed v (precOf e) ++ " +/- " ++ formatFixed e (precOf e)) ∧
        (precOf e : ℤ) = max 0 (-(floorLog10 e) + 1) ∧
        (10 : ℚ) ^ floorLog10 e ≤ e ∧ e < (10 : ℚ) ^ (floorLog10 e + 1) ∧
        decimalCount (formatFixed v (precOf e)) = precOf e ∧
        decimalCount (formatFixed e (precOf e)) = precOf e) := by
  constructor
  · rw [val_and_err_to_str, ← Rat.num_nonpos]
    by_cases h : e.num ≤ 0 <;> simp [h]
  · intro hpos
    have h : ¬ e.num ≤ 0 := not_le.mpr (Rat.num_pos.mpr hpos)
    refine ⟨by rw [val_and_err_to_str, if_neg h], ?_,
      (floorLog10_spec e hpos).1, (floorLog10_spec e hpos).2,
      decimalCount_formatFixed v _, decimalCount_formatFixed e _⟩
    rw [precOf]
    exact Int.toNat_of_nonneg (le_max_left 0 _)

/-- C5 witness: the specification theorem instantiated at
`v = 1.2345`, `e = 0.012` (in reduced normal form). -/
theorem val_and_err_to_str_spec_witness :
    (0 : ℚ) < q0_012 ∧
      (val_and_err_to_str q1_2345 q0_012 =
          some (formatFixed q1_2345 (precOf q0_012) ++ " +/- " ++
            formatFixed q0_012 (precOf q0_012)) ∧
        (precOf q0_012 : ℤ) = max 0 (-(floorLog10 q0_012) + 1) ∧
        (10 : ℚ) ^ floorLog10 q0_012 ≤ q0_012 ∧
          q0_012 < (10 : ℚ) ^ (floorLog10 q0_012 + 1) ∧
        decimalCount (formatFixed q1_2345 (precOf q0_012)) = precOf q0_012 ∧
        decimalCount (formatFixed q0_012 (precOf q0_012)) = precOf q0_012) :=
  ⟨by decide, (val_and_err_to_str_spec q1_2345 q0_012).2 (by decide)⟩

/-- C6 counterexample: the code formats with
`p = max(0, -floor(log10 e) + 1)` decimal places, so
`val_and_err_to_str(1.2345, 0.012)` is `"1.234 ± 0.012"` (p = 3), not
`"1.23 ± 0.01"`, and `val_and_err_to_str(123.4, 5.0)` is
`"123.4 ± 5.0"` (p = 1), not `"123 ± 5"` (ASCII plus-minus in the actual
strings). -/
theorem val_and_err_examples_cex :
    val_and_err_to_str (1.2345 : ℚ) (0.012 : ℚ) ≠ some "1.23 +/- 0.01" ∧
    val_and_err_to_str (123.4 : ℚ) (5.0 : ℚ) ≠ some "123 +/- 5" := by
  rw [lit_1_2345, lit_0_012, lit_123_4, lit_5_0]
  exact ⟨by decide, by decide⟩

/-- C6 amended: `val_and_err_to_str(1.2345, 0.012)` returns
`"1.234 ± 0.012"` and `val_and_err_to_str(123.4, 5.0)` returns
`"123.4 ± 5.0"` (ASCII plus-minus in the actual strings). -/
theorem val_and_err_examples_amended :
    val_and_err_to_str (1.2345 : ℚ) (0.012 : ℚ) = some "1.234 +/- 0.012" ∧
    val_and_err_to_str (123.4 : ℚ) (5.0 : ℚ) = some "123.4 +/- 5.0" := by
  rw [lit_1_2345, lit_0_012, lit_123_4, lit_5_0]
  exact ⟨by decide, by decide⟩

theorem normalized_flux_fst_eq (gms : String → MagSystem) (data : ObsData) (zp : ℝ)
    (ms : String) (i : ℕ) (hi : i < data.flux.length) :
    (normalized_flux gms data zp ms).1[i]? =
      some (data.flux.getD i 0 * nfFactor gms (gms ms) data zp i) := by
  simp [normalized_flux, List.getElem?_map, List.getElem?_range hi]

theorem normalized_flux_snd_eq (gms : String → MagSystem) (data : ObsData) (zp : ℝ)
    (ms : String) (i : ℕ) (hi : i < data.flux.length) :
    (normalized_flux gms data zp ms).2[i]? =
      some (data.fluxerr.getD i 0 * nfFactor gms (gms ms) data zp i) := by
  simp [normalized_flux, List.getElem?_map, List.getElem?_range hi]

/-- C1: for every batch and row `i`, `normalized_flux` multiplies `flux[i]`
and `fluxerr[i]` by `(native reference flux) / (target reference flux) *
10^(0.4*(target zp - native zp[i]))`, the native system looked up from
`zpsys[i]` and the target system from the `magsys` argument, and returns
the two resulting arrays. -/
theorem normalized_flux_rowwise (gms : String → MagSystem) (data : ObsData) (zp : ℝ)
    (ms : String) (i : ℕ) (hi : i < data.flux.length) :
    (normalized_flux gms data zp ms).1[i]? =
      some (data.flux.getD i 0 *
        ((gms (data.zpsys.getD i "")).zpbandflux (data.band.getD i "") /
            (gms ms).zpbandflux (data.band.getD i "") *
          (10 : ℝ) ^ (0.4 * (zp - data.zp.getD i 0)))) ∧
    (normalized_flux gms data zp ms).2[i]? =
      some (data.fluxerr.getD i 0 *
        ((gms (data.zpsys.getD i "")).zpbandflux (data.band.getD i "") /
            (gms ms).zpbandflux (data.band.getD i "") *
          (10 : ℝ) ^ (0.4 * (zp - data.zp.getD i 0)))) :=
  ⟨normalized_flux_fst_eq gms data zp ms i hi, normalized_flux_snd_eq gms data zp ms i hi⟩

/-- C1 witness: the row-wise factor theorem at a concrete one-row batch. -/
theorem normalized_flux_rowwise_witness :
    0 < dataA.flux.length ∧
      ((normalized_flux gmsOne dataA 25 "ab").1[0]? =
        some (dataA.flux.getD 0 0 *
          ((gmsOne (dataA.zpsys.getD 0 "")).zpbandflux (dataA.band.getD 0 "") /
              (gmsOne "ab").zpbandflux (dataA.band.getD 0 "") *
            (10 : ℝ) ^ (0.4 * (25 - dataA.zp.getD 0 0)))) ∧
       (normalized_flux gmsOne dataA 25 "ab").2[0]? =
        some (dataA.fluxerr.getD 0 0 *
          ((gmsOne (dataA.zpsys.getD 0 "")).zpbandflux (dataA.band.getD 0 "") /
              (gmsOne "ab").zpbandflux (dataA.band.getD 0 "") *
            (10 : ℝ) ^ (0.4 * (25 - dataA.zp.getD 0 0))))) :=
  ⟨by decide, normalized_flux_rowwise gmsOne dataA 25 "ab" 0 (by decide)⟩

/-- C3: a row whose native system label equals the target label and whose
native zeropoint equals the target zeropoint is returned unchanged (the
lookup is a function, hence deterministic; the reference flux of the
shared system must be nonzero, since the source divides by it). -/
theorem normalized_flux_identity_row (gms : String → MagSystem) (data : ObsData) (zp : ℝ)
    (ms : String) (i : ℕ) (hi : i < data.flux.length)
    (hlen : data.fluxerr.length = data.flux.length)
    (hsys : data.zpsys.getD i "" = ms) (hzp : data.zp.getD i 0 = zp)
    (hnz : (gms ms).zpbandflux (data.band.getD i "") ≠ 0) :
    (normalized_flux gms data zp ms).1[i]? = data.flux[i]? ∧
    (normalized_flux gms data zp ms).2[i]? = data.fluxerr[i]? := by
  have hfac : nfFactor gms (gms ms) data zp i = 1 := by
    rw [nfFactor, hsys, hzp, sub_self, mul_zero, Real.rpow_zero, div_self hnz, one_mul]
  have hi2 : i < data.fluxerr.length := by omega
  constructor
  · rw [normalized_flux_fst_eq gms data zp ms i hi, hfac, mul_one,
      List.getD_eq_getElem?_getD, List.getElem?_eq_getElem hi]
    rfl
  · rw [normalized_flux_snd_eq gms data zp ms i hi, hfac, mul_one,
      List.getD_eq_getElem?_getD, List.getElem?_eq_getElem hi2]
    rfl

/-- C3 witness: the identity-row theorem at a concrete one-row batch whose
native system and zeropoint match the target. -/
theorem normalized_flux_identity_row_witness :
    (0 < dataA.flux.length ∧ dataA.zpsys.getD 0 "" = "ab" ∧ dataA.zp.getD 0 0 = 25 ∧
      (gmsOne "ab").zpbandflux (dataA.band.getD 0 "") ≠ 0) ∧
      ((normalized_flux gmsOne dataA 25 "ab").1[0]? = dataA.flux[0]? ∧
       (normalized_flux gmsOne dataA 25 "ab").2[0]? = dataA.fluxerr[0]?) :=
  ⟨⟨by decide, rfl, rfl, one_ne_zero⟩,
    normalized_flux_identity_row gmsOne dataA 25 "ab" 0 (by decide) rfl rfl rfl one_ne_zero⟩

theorem getD_map_mul (c : ℝ) (l : List ℝ) (i : ℕ) :
    (l.map (fun x => c * x)).getD i 0 = c * l.getD i 0 := by
  rcases Nat.lt_or_ge i l.length with h | h
  · rw [List.getD_eq_getElem?_getD, List.getElem?_map, List.getElem?_eq_getElem h,
      List.getD_eq_getElem?_getD, List.getElem?_eq_getElem h]
    rfl
  · rw [List.getD_eq_getElem?_getD, List.getElem?_map,
      List.getElem?_eq_none (by simpa using h),
      List.getD_eq_getElem?_getD, List.getElem?_eq_none h]
    simp

theorem nfFactor_scaleFluxes (gms : String → MagSystem) (ms' : MagSystem) (data : ObsData)
    (zp : ℝ) (c : ℝ) (i : ℕ) :
    nfFactor gms ms' (scaleFluxes c data) zp i = nfFactor gms ms' data zp i := rfl

/-- C4: both arrays returned by `normalized_flux` have the length of the
input flux column (hence its row order), and for fixed band, zpsys and zp
columns the output is homogeneous in the flux and flux-error columns:
scaling them by `c` scales both outputs elementwise by `c`. -/
theorem normalized_flux_length_linear (gms : String → MagSystem) (data : ObsData) (zp : ℝ)
    (ms : String) (c : ℝ) :
    (normalized_flux gms data zp ms).1.length = data.flux.length ∧
    (normalized_flux gms data zp ms).2.length = data.flux.length ∧
    (normalized_flux gms (scaleFluxes c data) zp ms).1 =
      (normalized_flux gms data zp ms).1.map (fun x => c * x) ∧
    (normalized_flux gms (scaleFluxes c data) zp ms).2 =
      (normalized_flux gms data zp ms).2.map (fun x => c * x) := by
  have hlen : (scaleFluxes c data).flux.length = data.flux.length := by
    simp [scaleFluxes]
  refine ⟨by simp [normalized_flux], by simp [normalized_flux], ?_, ?_⟩
  · simp only [normalized_flux]
    rw [List.map_map, hlen]
    apply List.map_congr_left
    intro i _
    show (scaleFluxes c data).flux.getD i 0 * nfFactor gms (gms ms) (scaleFluxes c data) zp i =
      c * (data.flux.getD i 0 * nfFactor gms (gms ms) data zp i)
    rw [nfFactor_scaleFluxes,
      show (scaleFluxes c data).flux = data.flux.map (fun x => c * x) from rfl,
      getD_map_mul]
    ring
  · simp only [normalized_flux]
    rw [List.map_map, hlen]
    apply List.map_congr_left
    intro i _
    show (scaleFluxes c data).fluxerr.getD i 0 * nfFactor gms (gms ms) (scaleFluxes c data) zp i =
      c * (data.fluxerr.getD i 0 * nfFactor gms (gms ms) data zp i)
    rw [nfFactor_scaleFluxes,
      show (scaleFluxes c data).fluxerr = data.fluxerr.map (fun x => c * x) from rfl,
      getD_map_mul]
    ring

/-- C10: for every row with nonzero flux (and nonzero reference fluxes, as
the source divides by them), the ratio of normalized flux error to
normalized flux equals the input ratio, i.e. the signal-to-noise ratio is
preserved: both entries are multiplied by the same per-row factor. -/
theorem normalized_flux_snr (gms : String → MagSystem) (data : ObsData) (zp : ℝ)
    (ms : String) (i : ℕ) (hi : i < data.flux.length)
    (_hflux : data.flux.getD i 0 ≠ 0)
    (h1 : (gms (data.zpsys.getD i "")).zpbandflux (data.band.getD i "") ≠ 0)
    (h2 : (gms ms).zpbandflux (data.band.getD i "") ≠ 0) :
    (normalized_flux gms data zp ms).2.getD i 0 /
        (normalized_flux gms data zp ms).1.getD i 0 =
      data.fluxerr.getD i 0 / data.flux.getD i 0 := by
  have hget1 : (normalized_flux gms data zp ms).1.getD i 0 =
      data.flux.getD i 0 * nfFactor gms (gms ms) data zp i := by
    rw [List.getD_eq_getElem?_getD, normalized_flux_fst_eq gms data zp ms i hi]
    rfl
  have hget2 : (normalized_flux gms data zp ms).2.getD i 0 =
      data.fluxerr.getD i 0 * nfFactor gms (gms ms) data zp i := by
    rw [List.getD_eq_getElem?_getD, normalized_flux_snd_eq gms data zp ms i hi]
    rfl
  have hfac : nfFactor gms (gms ms) data zp i ≠ 0 := by
    apply mul_ne_zero (div_ne_zero h1 h2)
    exact ne_of_gt (Real.rpow_pos_of_pos (by norm_num) _)
  rw [hget1, hget2, mul_div_mul_right _ _ hfac]

/-- C10 witness: the signal-to-noise theorem at a concrete one-row batch. -/
theorem normalized_flux_snr_witness :
    (0 < dataA.flux.length ∧ dataA.flux.getD 0 0 ≠ 0) ∧
      (normalized_flux gmsOne dataA 25 "ab").2.getD 0 0 /
          (normalized_flux gmsOne dataA 25 "ab").1.getD 0 0 =
        dataA.fluxerr.getD 0 0 / dataA.flux.getD 0 0 :=
  ⟨⟨by decide, two_ne_zero⟩,
    normalized_flux_snr gmsOne dataA 25 "ab" 0 (by decide) two_ne_zero one_ne_zero one_ne_zero⟩

theorem subplotE_ok (nrow ncol num : ℤ) (h1 : 1 ≤ num) (h2 : num ≤ nrow * ncol) :
    subplotE nrow ncol num = Except.ok [PlotCmd.subplot nrow ncol num] := by
  rw [subplotE, if_pos ⟨h1, h2⟩]

theorem subplotE_axnum_ok (axnum : ℕ) (h1 : 1 ≤ axnum) (h4 : axnum ≤ 4) :
    subplotE 2 2 (axnum : ℤ) = Except.ok [PlotCmd.subplot 2 2 (axnum : ℤ)] :=
  subplotE_ok 2 2 (axnum : ℤ) (by exact_mod_cast h1) (by exact_mod_cast h4)

/-- C2 counterexample: with a model supplied whose overlap predicate is
false for the (only) band of the batch, the successful `plotlc` trace
contains no error-bar series at all — the band's data is not drawn,
contradicting the claim that the data is drawn without a model curve. -/
theorem plotlc_no_overlap_cex :
    modelNoOverlap.bandoverlap (gbpB "b") = false ∧
    dataB.band = ["b"] ∧
    Except.map (List.countP isErrorbarCmd)
      (plotlc gbpB gmsOne ylimConst dataB (some "out.png") (some modelNoOverlap) true false) =
      Except.ok 0 :=
  ⟨rfl, rfl, rfl⟩

/-- C2 amended: when a model is supplied and its overlap predicate is
false for a band, the band's panel draws neither the data error bars nor
a model curve: it consists of the subplot, the band-name text, and (in
the left column) the y-axis label only. -/
theorem plotlcPanel_no_overlap (gbp : String → Bandpass) (ay : ℕ → ℝ × ℝ) (data : ObsData)
    (df dfe : List ℝ) (m : SNModel) (sp ie : Bool) (axnum : ℕ) (bn : String)
    (h1 : 1 ≤ axnum) (h4 : axnum ≤ 4)
    (hov : m.bandoverlap (gbp bn) = false) :
    plotlcPanel gbp ay data df dfe (some m) sp ie axnum bn =
      Except.ok ([PlotCmd.subplot 2 2 (axnum : ℤ), PlotCmd.text 0.9 0.9 bn] ++
        (if axnum % 2 = 1 then [PlotCmd.ylabel fluxYLabel] else [])) := by
  have hsub := subplotE_axnum_ok axnum h1 h4
  simp only [plotlcPanel, hsub, hov]
  rfl

/-- C2 amended witness: the no-overlap panel theorem at a concrete
one-band batch and non-overlapping model. -/
theorem plotlcPanel_no_overlap_witness :
    (1 ≤ 1 ∧ 1 ≤ 4 ∧ modelNoOverlap.bandoverlap (gbpB "b") = false) ∧
      plotlcPanel gbpB ylimConst dataB [2] [1] (some modelNoOverlap) true false 1 "b" =
        Except.ok ([PlotCmd.subplot 2 2 ((1 : ℕ) : ℤ), PlotCmd.text 0.9 0.9 "b"] ++
          (if 1 % 2 = 1 then [PlotCmd.ylabel fluxYLabel] else [])) :=
  ⟨⟨le_refl 1, by decide, rfl⟩,
    plotlcPanel_no_overlap gbpB ylimConst dataB [2] [1] modelNoOverlap true false 1 "b"
      (le_refl 1) (by decide) rfl⟩

/-- C7 counterexample: with the pulls subpanel shown, the final y-range
clamp uses the maximum of the model flux at the observation times (here
5), not the maximum of the plotted model curve (here 20): the trace's
final `set_ylim` differs from the claimed
`automatic ∩ [-0.2*peak(plotted curve), 2*peak(plotted curve)]`. -/
theorem plotlc_ylim_pulls_cex :
    modelOverlap.bandoverlap (gbpB "b") = true ∧
    Except.map lastSetYlim
      (plotlc gbpB gmsOne ylimConst dataB (some "out.png") (some modelOverlap) true false) ≠
      Except.ok (some
        (max (ylimConst 1).1 ((-0.2 : ℝ) * listMax (modelOverlap.bandflux_grid (gbpB "b"))),
         min (ylimConst 1).2 ((2 : ℝ) * listMax (modelOverlap.bandflux_grid (gbpB "b"))))) := by
  refine ⟨rfl, ?_⟩
  have h0 : Except.map lastSetYlim
      (plotlc gbpB gmsOne ylimConst dataB (some "out.png") (some modelOverlap) true false) =
      Except.ok (some (max (-1000 : ℝ) ((-0.2 : ℝ) * (5 : ℝ)),
        min (1000 : ℝ) ((2 : ℝ) * (5 : ℝ)))) := rfl
  have h1 : listMax (modelOverlap.bandflux_grid (gbpB "b")) = (20 : ℝ) := rfl
  have h2 : (ylimConst 1).1 = (-1000 : ℝ) := rfl
  have h3 : (ylimConst 1).2 = (1000 : ℝ) := rfl
  rw [h0, h1, h2, h3]
  intro h
  have h4 := Option.some.inj (Except.ok.inj h)
  have h5 := congrArg Prod.snd h4
  simp only at h5
  rw [min_eq_right (by norm_num : (2 : ℝ) * 5 ≤ 1000),
    min_eq_right (by norm_num : (2 : ℝ) * 20 ≤ 1000)] at h5
  norm_num at h5

/-- C7 amended: for a band panel with an overlapping model, the final
command is `set_ylim (max auto_lo (-0.2*M)) (min auto_hi (2*M))` — the
automatic range intersected with `[-0.2*M, 2*M]` — where `M` is the
maximum of the model flux at the band's observation times when the pulls
subpanel is shown, and the maximum of the plotted model curve otherwise. -/
theorem plotlcPanel_overlap_ylim (gbp : String → Bandpass) (ay : ℕ → ℝ × ℝ) (data : ObsData)
    (df dfe : List ℝ) (m : SNModel) (sp ie : Bool) (axnum : ℕ) (bn : String)
    (h1 : 1 ≤ axnum) (h4 : axnum ≤ 4)
    (hov : m.bandoverlap (gbp bn) = true) :
    ∃ cmds, plotlcPanel gbp ay data df dfe (some m) sp ie axnum bn = Except.ok cmds ∧
      cmds.getLast? = some (PlotCmd.set_ylim
        (max (ay axnum).1 ((-0.2 : ℝ) * listMax (if sp then
            m.bandflux_at (gbp bn) (selectBy data.band bn data.time)
          else m.bandflux_grid (gbp bn))))
        (min (ay axnum).2 ((2 : ℝ) * listMax (if sp then
            m.bandflux_at (gbp bn) (selectBy data.band bn data.time)
          else m.bandflux_grid (gbp bn))))) := by
  have hsub := subplotE_axnum_ok axnum h1 h4
  simp only [plotlcPanel, hsub, hov, if_true]
  refine ⟨_, rfl, ?_⟩
  rw [List.getLast?_concat]

/-- C7 amended witness: the y-range theorem at a concrete overlapping
model with the pulls subpanel shown. -/
theorem plotlcPanel_overlap_ylim_witness :
    (1 ≤ 1 ∧ 1 ≤ 4 ∧ modelOverlap.bandoverlap (gbpB "b") = true) ∧
      (∃ cmds, plotlcPanel gbpB ylimConst dataB [2] [1] (some modelOverlap) true false 1 "b" =
          Except.ok cmds ∧
        cmds.getLast? = some (PlotCmd.set_ylim
          (max (ylimConst 1).1 ((-0.2 : ℝ) * listMax (if true then
              modelOverlap.bandflux_at (gbpB "b") (selectBy dataB.band "b" dataB.time)
            else modelOverlap.bandflux_grid (gbpB "b"))))
          (min (ylimConst 1).2 ((2 : ℝ) * listMax (if true then
              modelOverlap.bandflux_at (gbpB "b") (selectBy dataB.band "b" dataB.time)
            else modelOverlap.bandflux_grid (gbpB "b")))))) :=
  ⟨⟨le_refl 1, by decide, rfl⟩,
    plotlcPanel_overlap_ylim gbpB ylimConst dataB [2] [1] modelOverlap true false 1 "b"
      (le_refl 1) (by decide) rfl⟩

theorem plotlcPanel_none_eq (gbp : String → Bandpass) (ay : ℕ → ℝ × ℝ) (data : ObsData)
    (df dfe : List ℝ) (sp ie : Bool) (axnum : ℕ) (bn : String)
    (h1 : 1 ≤ axnum) (h4 : axnum ≤ 4) :
    plotlcPanel gbp ay data df dfe none sp ie axnum bn =
      Except.ok (([PlotCmd.subplot 2 2 (axnum : ℤ), PlotCmd.text 0.9 0.9 bn] ++
        (if axnum % 2 = 1 then [PlotCmd.ylabel fluxYLabel] else [])) ++
        [PlotCmd.errorbar (selectBy data.band bn data.time) (selectBy data.band bn df)
          (selectBy data.band bn dfe)]) := by
  have hsub := subplotE_axnum_ok axnum h1 h4
  simp only [plotlcPanel, hsub]
  rfl

theorem plotlcPanels_none_spec (gbp : String → Bandpass) (ay : ℕ → ℝ × ℝ) (data : ObsData)
    (df dfe : List ℝ) (sp ie : Bool) :
    ∀ (l : List (ℚ × String)) (axnum : ℕ), axnum + l.length ≤ 4 →
    ∃ cmds, plotlcPanels gbp ay data df dfe none sp ie axnum l = Except.ok cmds ∧
      cmds.filter isErrorbarCmd = l.map (fun db =>
        PlotCmd.errorbar (selectBy data.band db.2 data.time)
          (selectBy data.band db.2 df) (selectBy data.band db.2 dfe)) := by
  intro l
  induction l with
  | nil => intro axnum _; exact ⟨[], rfl, rfl⟩
  | cons db rest ih =>
    intro axnum hle
    have hlen : (db :: rest).length = rest.length + 1 := rfl
    have h1 : 1 ≤ axnum + 1 := by omega
    have h4 : axnum + 1 ≤ 4 := by rw [hlen] at hle; omega
    obtain ⟨cmds, hc, hf⟩ := ih (axnum + 1) (by rw [hlen] at hle; omega)
    simp only [plotlcPanels, plotlcPanel_none_eq gbp ay data df dfe sp ie (axnum + 1) db.2 h1 h4,
      hc]
    refine ⟨_, rfl, ?_⟩
    rw [List.filter_append, hf, List.filter_append, List.map_cons]
    by_cases h : (axnum + 1) % 2 = 1
    · rw [if_pos h]; rfl
    · rw [if_neg h]; rfl

/-- C8: with at most four distinct bands and no model, `plotlc` succeeds,
its trace's error-bar series are exactly one per distinct band (in the
order of the sorted band list, each carrying that band's selected data),
their number equals the number of distinct bands, the processed band list
is a permutation of the distinct bands, and it is ordered by ascending
effective wavelength. -/
theorem plotlc_no_model_spec (gbp : String → Bandpass) (gms : String → MagSystem)
    (ay : ℕ → ℝ × ℝ) (data : ObsData) (fname : Option String) (sp ie : Bool)
    (hb : (npUnique data.band).length ≤ 4) :
    ∃ cmds, plotlc gbp gms ay data fname none sp ie = Except.ok cmds ∧
      cmds.filter isErrorbarCmd = (sortedBandDisp gbp data).map (fun db =>
        PlotCmd.errorbar (selectBy data.band db.2 data.time)
          (selectBy data.band db.2 (normalized_flux gms data 25 "ab").1)
          (selectBy data.band db.2 (normalized_flux gms data 25 "ab").2)) ∧
      (cmds.filter isErrorbarCmd).length = (npUnique data.band).length ∧
      ((sortedBandDisp gbp data).map (fun db => db.2)).Perm (npUnique data.band) ∧
      List.Pairwise (fun x y => (gbp x).disp_eff ≤ (gbp y).disp_eff)
        ((sortedBandDisp gbp data).map (fun db => db.2)) := by
  have hlen : (sortedBandDisp gbp data).length = (npUnique data.band).length := by
    rw [sortedBandDisp, (List.perm_insertionSort dispLe _).length_eq, List.length_map]
  obtain ⟨cmds, hc, hf⟩ := plotlcPanels_none_spec gbp ay data
    (normalized_flux gms data 25 "ab").1 (normalized_flux gms data 25 "ab").2 sp ie
    (sortedBandDisp gbp data) 0 (by omega)
  have hperm : ((sortedBandDisp gbp data).map (fun db => db.2)).Perm (npUnique data.band) := by
    have hp := (List.perm_insertionSort dispLe
      ((npUnique data.band).map (fun bn => ((gbp bn).disp_eff, bn)))).map
      (fun db : ℚ × String => db.2)
    rw [List.map_map] at hp
    have hid : List.map ((fun db : ℚ × String => db.2) ∘ fun bn => ((gbp bn).disp_eff, bn))
        (npUnique data.band) = npUnique data.band := by
      rw [show ((fun db : ℚ × String => db.2) ∘ fun bn => ((gbp bn).disp_eff, bn)) = id from rfl,
        List.map_id]
    rw [hid] at hp
    rw [sortedBandDisp]
    exact hp
  have hsorted : List.Pairwise dispLe (sortedBandDisp gbp data) := by
    rw [sortedBandDisp]
    exact List.sorted_insertionSort dispLe _
  have hmem : ∀ p ∈ sortedBandDisp gbp data, p.1 = (gbp p.2).disp_eff := by
    intro p hp
    rw [sortedBandDisp] at hp
    have hp' := (List.perm_insertionSort dispLe _).subset hp
    obtain ⟨bn, _, rfl⟩ := List.mem_map.mp hp'
    rfl
  have hpair : List.Pairwise (fun x y => (gbp x).disp_eff ≤ (gbp y).disp_eff)
      ((sortedBandDisp gbp data).map (fun db => db.2)) := by
    apply List.pairwise_map.mpr
    apply List.Pairwise.imp_of_mem ?_ hsorted
    intro a b ha hb' hab
    rw [← hmem a ha, ← hmem b hb']
    exact hab
  have htrail : ∀ l : List PlotCmd,
      (l ++ plotlcTrailer fname).filter isErrorbarCmd = l.filter isErrorbarCmd := by
    intro l
    rw [List.filter_append]
    have hz : (plotlcTrailer fname).filter isErrorbarCmd = [] := by
      cases fname <;> rfl
    rw [hz, List.append_nil]
  refine ⟨cmds ++ plotlcTrailer fname, ?_, ?_, ?_, hperm, hpair⟩
  · simp only [plotlc, hc]
  · rw [htrail, hf]
  · rw [htrail, hf, List.length_map, hlen]

/-- C8 witness: the no-model theorem at a concrete two-band batch. -/
theorem plotlc_no_model_spec_witness :
    (npUnique data2.band).length ≤ 4 ∧
      (∃ cmds, plotlc gbp2 gmsOne ylimConst data2 (some "out.png") none true false =
          Except.ok cmds ∧
        cmds.filter isErrorbarCmd = (sortedBandDisp gbp2 data2).map (fun db =>
          PlotCmd.errorbar (selectBy data2.band db.2 data2.time)
            (selectBy data2.band db.2 (normalized_flux gmsOne data2 25 "ab").1)
            (selectBy data2.band db.2 (normalized_flux gmsOne data2 25 "ab").2)) ∧
        (cmds.filter isErrorbarCmd).length = (npUnique data2.band).length ∧
        ((sortedBandDisp gbp2 data2).map (fun db => db.2)).Perm (npUnique data2.band) ∧
        List.Pairwise (fun x y => (gbp2 x).disp_eff ≤ (gbp2 y).disp_eff)
          ((sortedBandDisp gbp2 data2).map (fun db => db.2))) :=
  ⟨by decide,
    plotlc_no_model_spec gbp2 gmsOne ylimConst data2 (some "out.png") true false (by decide)⟩

/-- C9: for a non-empty parameter list, `plotpdfs` aborts with an error
before writing any output (the trace carrying `savefig` is never
produced): the first parameter's panel is addressed at subplot position 0,
which the 1-based subplot addressing rejects (second conjunct); when the
first uncertainty is non-positive the call aborts even earlier, at the
logarithm. -/
theorem plotpdfs_aborts (parnames : List String) (samples : List (List ℚ))
    (weights averages errors : List ℚ) (fname : String) (ncol : ℕ)
    (h : parnames ≠ []) :
    (∃ msg, plotpdfs parnames samples weights averages errors fname ncol =
      Except.error msg) ∧
    ∀ cmds, subplotE (nrowOf parnames.length ncol) (ncol : ℤ) 0 ≠ Except.ok cmds := by
  have hsub : ∀ nrow ncol' : ℤ, subplotE nrow ncol' 0 =
      Except.error "subplot: num must be inside the 1-based grid range" := by
    intro nrow ncol'
    rw [subplotE, if_neg]
    intro hcon
    omega
  constructor
  · have hpanel : ∃ msg, plotpdfsPanel parnames samples weights averages errors
        (nrowOf parnames.length ncol) (ncol : ℤ) 0 = Except.error msg := by
      cases hv : val_and_err_to_str (averages.getD 0 0) (errors.getD 0 0) with
      | none =>
        refine ⟨"math domain error", ?_⟩
        simp only [plotpdfsPanel, hv]
      | some s =>
        refine ⟨"subplot: num must be inside the 1-based grid range", ?_⟩
        simp only [plotpdfsPanel, hv, Nat.cast_zero, hsub]
    obtain ⟨k, hk⟩ : ∃ k, parnames.length = k + 1 := by
      cases hp : parnames with
      | nil => exact absurd hp h
      | cons a l => exact ⟨l.length, rfl⟩
    obtain ⟨msg, hmsg⟩ := hpanel
    refine ⟨msg, ?_⟩
    simp only [plotpdfs, hk, List.range_succ_eq_map, plotpdfsLoop]
    rw [← hk]
    simp only [hmsg]
  · intro cmds hcmds
    rw [hsub] at hcmds
    exact Except.noConfusion hcmds

/-- C9 witness: the abort theorem at a concrete one-parameter call. -/
theorem plotpdfs_aborts_witness :
    (["x"] : List String) ≠ [] ∧
      ((∃ msg, plotpdfs ["x"] [[1]] [1] [0] [1] "out.png" 2 = Except.error msg) ∧
        ∀ cmds, subplotE (nrowOf (["x"] : List String).length 2) ((2 : ℕ) : ℤ) 0 ≠
          Except.ok cmds) :=
  ⟨by decide, plotpdfs_aborts ["x"] [[1]] [1] [0] [1] "out.png" 2 (by decide)⟩
